import Mathlib

/-!
Shallow embedding of the wiki-link rewriting engine of the repository:

* `zettel_link_rewriter.py`, `modify_links` (lines 135-172): two chained
  `regex.sub` passes over the whole file text ("raw mode");
* `zettel_hugo_postmaker.py`, `modify_links` (lines 468-537): five chained
  `regex.sub` passes ("escaped mode", on pandoc output).

Each pass is an alternation whose protective alternatives come first and end
in a skip-then-fail verb pair, so the engine scans left to right, and at each
position tries, in order: the fenced-code alternative, the inline-code
alternative, (in raw mode) the indented-line alternative, and finally the
link-rewriting alternative.  A protective alternative that matches makes the
scan resume after the matched text, copying it verbatim; a link match is
replaced by its template and the scan resumes after it; otherwise the scan
advances one character.  Documents are lists of characters.
-/

/-- A document is its sequence of characters. -/
abbrev Doc := List Char

/-- ASCII whitespace, as matched by the regex class backslash-s on the
ASCII text this tool processes. -/
def isWs (c : Char) : Bool :=
  c == ' ' || c == '\t' || c == '\n' || c == '\r' || c == '\x0b' || c == '\x0c'

/-- Length of the text up to (excluding) the next newline: the extent that a
greedy dot-star without the DOTALL flag can consume from here. -/
def lineLen (s : Doc) : Nat := (s.takeWhile (fun c => c != '\n')).length

/-- Index of the first position where three consecutive backticks start, if
any: the lazy body of the fenced-code alternative stops at the first closing
delimiter. -/
def findTriple : Doc → Option Nat
  | [] => none
  | c :: rest =>
    if ['\x60', '\x60', '\x60'].isPrefixOf (c :: rest) then some 0
    else (findTriple rest).map (· + 1)

/-- Index of the first backtick, if any. -/
def findTick : Doc → Option Nat
  | [] => none
  | c :: rest => if c == '\x60' then some 0 else (findTick rest).map (· + 1)

/-- The fenced-code protective alternative: three backticks, a lazy DOTALL
body, three closing backticks.  Returns the number of characters the whole
span occupies.  With no closing delimiter the alternative fails (it does not
protect to end of document). -/
def fencedSkip (s : Doc) : Option Nat :=
  if ['\x60', '\x60', '\x60'].isPrefixOf s then
    (findTriple (s.drop 3)).map (fun k => 6 + k)
  else none

/-- The inline-code protective alternative: a backtick, a lazy DOTALL body,
the next backtick. -/
def inlineSkip (s : Doc) : Option Nat :=
  if ['\x60'].isPrefixOf s then (findTick (s.drop 1)).map (fun k => 2 + k)
  else none

/-- The indented-code protective alternative of the first raw-mode pass:
four spaces or one tab, then a greedy dot-star - it protects from the match
position to the end of the line. -/
def indentSkipTab (s : Doc) : Option Nat :=
  if [' ', ' ', ' ', ' '].isPrefixOf s || ['\t'].isPrefixOf s then some (lineLen s)
  else none

/-- The indented-code protective alternative of the second raw-mode pass:
four spaces only; the source comments note that tabs are excluded here. -/
def indentSkipSp (s : Doc) : Option Nat :=
  if [' ', ' ', ' ', ' '].isPrefixOf s then some (lineLen s)
  else none

/-- The negative lookahead shared by both bare-title rules: fails when the
next characters are an opening parenthesis, or one whitespace character and
an opening parenthesis. -/
def negTarget : Doc → Bool
  | '(' :: _ => false
  | a :: '(' :: _ => !(isWs a)
  | _ => true

/-- Backtracking search for the greedy no-newline dot-star followed by a
closing condition: the largest extent `k` (at most to the end of the line)
at which `close` holds is tried first, exactly as the regex engine
backtracks a greedy dot-star from its maximal extent. -/
def greedyFrom (close : Doc → Bool) (r : Doc) : Nat → Option Nat
  | 0 => if close r then some 0 else none
  | k + 1 => if close (r.drop (k + 1)) then some (k + 1) else greedyFrom close r k

/-- The greedy capture extent: the largest `k` up to the line length at which
the closing condition holds. -/
def greedy (close : Doc → Bool) (r : Doc) : Option Nat :=
  greedyFrom close r (lineLen r)

/-- Closing condition of the raw bare-title rule: two closing brackets, then
the negative lookahead. -/
def bareClose (u : Doc) : Bool := ([']', ']'].isPrefixOf u) && negTarget (u.drop 2)

/-- Closing condition of the escaped bare-title rule: backslash-bracket
twice, then the negative lookahead. -/
def bareEscClose (u : Doc) : Bool :=
  (['\\', ']', '\\', ']'].isPrefixOf u) && negTarget (u.drop 4)

/-- Closing condition of the numeric-plus-target rules: a closing
parenthesis. -/
def parenClose (u : Doc) : Bool := [')'].isPrefixOf u

/-- The literal middle part of every replacement template. -/
def tmplMid : Doc := "](\x7b\x7b< relref \"".data

/-- The literal tail of every replacement template. -/
def tmplEnd : Doc := ".md\" >\x7d\x7d)".data

/-- Bare-title replacement template: the captured title is both the visible
text and the target stem with extension `.md`. -/
def bareTemplate (t : Doc) : Doc := '[' :: (t ++ (tmplMid ++ (t ++ tmplEnd)))

/-- Numeric-plus-target replacement template: visible text and stem are the
id and target, space-joined. -/
def crossTemplate (d g : Doc) : Doc :=
  '[' :: ((d ++ (' ' :: g)) ++ (tmplMid ++ ((d ++ (' ' :: g)) ++ tmplEnd)))

/-- Length of the maximal run of ASCII digits: the greedy digit-plus capture
(its backtracked extents are cut off by the literal bracket that follows). -/
def digitRun (s : Doc) : Nat := (s.takeWhile (fun c => c.isDigit)).length

/-- The separator alternation of the in-line rules: one whitespace character
and an opening parenthesis (tried first), or an opening parenthesis. -/
def sepLen : Doc → Option Nat
  | a :: '(' :: _ => if isWs a then some 2 else if a == '(' then some 1 else none
  | '(' :: _ => some 1
  | _ => none

/-- Raw-mode pass 1 rewriting alternative (zettel_link_rewriter.py line 156):
two open brackets, a greedy title, two close brackets, not followed by a
target.  Returns consumed length and replacement. -/
def bareRawMatch (s : Doc) : Option (Nat × Doc) :=
  if ['[', '['].isPrefixOf s then
    match greedy bareClose (s.drop 2) with
    | some k => some (k + 4, bareTemplate ((s.drop 2).take k))
    | none => none
  else none

/-- Raw-mode pass 2 rewriting alternative (zettel_link_rewriter.py line 165):
double-bracketed digits followed by a parenthesized target, with an optional
single whitespace before the opening parenthesis. -/
def numRawMatch (s : Doc) : Option (Nat × Doc) :=
  if ['[', '['].isPrefixOf s then
    let r := s.drop 2
    let n := digitRun r
    if n == 0 then none
    else if [']', ']'].isPrefixOf (r.drop n) then
      match sepLen (r.drop (n + 2)) with
      | some m =>
        match greedy parenClose (r.drop (n + 2 + m)) with
        | some k =>
          some (n + m + k + 5, crossTemplate (r.take n) ((r.drop (n + 2 + m)).take k))
        | none => none
      | none => none
    else none
  else none

/-- Escaped-mode pass 1 rewriting alternative (zettel_hugo_postmaker.py line
491): backslash-escaped double brackets around a greedy title, not followed
by a target. -/
def bareEscMatch (s : Doc) : Option (Nat × Doc) :=
  if ['\\', '[', '\\', '['].isPrefixOf s then
    match greedy bareEscClose (s.drop 4) with
    | some k => some (k + 8, bareTemplate ((s.drop 4).take k))
    | none => none
  else none

/-- Escaped-mode pass 2 rewriting alternative (zettel_hugo_postmaker.py line
501): bracket, escaped bracket, digits, escaped bracket, bracket - normalized
to a plain bracketed number. -/
def numNormMatch (s : Doc) : Option (Nat × Doc) :=
  if ['[', '\\', '['].isPrefixOf s then
    let r := s.drop 3
    let n := digitRun r
    if n == 0 then none
    else if ['\\', ']', ']'].isPrefixOf (r.drop n) then
      some (n + 6, '[' :: (r.take n ++ [']']))
    else none
  else none

/-- First parenthesis character (either kind) at or after this position:
the lookahead of the percent-decoding rule skips any characters that are not
parentheses (newlines included, as the class is negated). -/
def firstParen (u : Doc) : Option Char :=
  (u.dropWhile (fun c => c != '(' && c != ')')).head?

/-- Escaped-mode pass 3 rewriting alternative (zettel_hugo_postmaker.py line
510): a percent-two followed by one or more zeros, with a lookahead requiring
a closing parenthesis before any other parenthesis; replaced by one space. -/
def pctMatch (s : Doc) : Option (Nat × Doc) :=
  if ['%', '2'].isPrefixOf s then
    let z := ((s.drop 2).takeWhile (fun c => c == '0')).length
    if z == 0 then none
    else if firstParen (s.drop (2 + z)) == some ')' then some (2 + z, [' '])
    else none
  else none

/-- Escaped-mode pass 4 rewriting alternative (zettel_hugo_postmaker.py line
519): plain bracketed digits immediately followed by a parenthesized
target. -/
def numEscMatch (s : Doc) : Option (Nat × Doc) :=
  if ['['].isPrefixOf s then
    let r := s.drop 1
    let n := digitRun r
    if n == 0 then none
    else if [']', '('].isPrefixOf (r.drop n) then
      match greedy parenClose (r.drop (n + 2)) with
      | some k => some (n + k + 4, crossTemplate (r.take n) ((r.drop (n + 2)).take k))
      | none => none
    else none
  else none

/-- Escaped-mode pass 5 rewriting alternative (zettel_hugo_postmaker.py line
529): still-escaped double-bracketed digits followed by a parenthesized
target, with an optional single whitespace before the opening parenthesis. -/
def crossEscMatch (s : Doc) : Option (Nat × Doc) :=
  if ['\\', '[', '\\', '['].isPrefixOf s then
    let r := s.drop 4
    let n := digitRun r
    if n == 0 then none
    else if ['\\', ']', '\\', ']'].isPrefixOf (r.drop n) then
      match sepLen (r.drop (n + 4)) with
      | some m =>
        match greedy parenClose (r.drop (n + 4 + m)) with
        | some k =>
          some (n + m + k + 9, crossTemplate (r.take n) ((r.drop (n + 4 + m)).take k))
        | none => none
      | none => none
    else none
  else none

/-- First protective alternative that matches at this position, in the order
the alternation lists them. -/
def firstSkip (skips : List (Doc → Option Nat)) (s : Doc) : Option Nat :=
  match skips with
  | [] => none
  | f :: fs =>
    match f s with
    | some n => some n
    | none => firstSkip fs s

/-- One whole-document substitution pass: scan left to right; a protective
match is copied verbatim and jumped over, a rewriting match is replaced and
jumped over, otherwise one character is copied.  Every alternative of every
pass consumes at least one character, so fuel equal to the document length
always suffices. -/
def subScan (skips : List (Doc → Option Nat)) (rwm : Doc → Option (Nat × Doc)) :
    Nat → Doc → Doc
  | 0, s => s
  | _ + 1, [] => []
  | fuel + 1, c :: rest =>
    match firstSkip skips (c :: rest) with
    | some n => (c :: rest).take n ++ subScan skips rwm fuel ((c :: rest).drop n)
    | none =>
      match rwm (c :: rest) with
      | some nr => nr.2 ++ subScan skips rwm fuel ((c :: rest).drop nr.1)
      | none => c :: subScan skips rwm fuel rest

/-- Protective alternatives of the first raw-mode pass. -/
def rawSkips : List (Doc → Option Nat) := [fencedSkip, inlineSkip, indentSkipTab]

/-- Protective alternatives of the second raw-mode pass. -/
def rawSkips2 : List (Doc → Option Nat) := [fencedSkip, inlineSkip, indentSkipSp]

/-- Protective alternatives of every escaped-mode pass (the indented-code
alternative is commented out in the source). -/
def escSkips : List (Doc → Option Nat) := [fencedSkip, inlineSkip]

/-- First raw-mode pass: bare-title references. -/
def rawPass1 (s : Doc) : Doc := subScan rawSkips bareRawMatch s.length s

/-- Second raw-mode pass: numeric-plus-target references. -/
def rawPass2 (s : Doc) : Doc := subScan rawSkips2 numRawMatch s.length s

/-- The raw-mode engine: `modify_links` of zettel_link_rewriter.py, applied
to decoded file text. -/
def modifyLinksRaw (s : Doc) : Doc := rawPass2 (rawPass1 s)

/-- Escaped-mode pass 1: escaped bare-title references. -/
def escPass1 (s : Doc) : Doc := subScan escSkips bareEscMatch s.length s

/-- Escaped-mode pass 2: numeric-bracket normalization. -/
def escPass2 (s : Doc) : Doc := subScan escSkips numNormMatch s.length s

/-- Escaped-mode pass 3: percent-space decode. -/
def escPass3 (s : Doc) : Doc := subScan escSkips pctMatch s.length s

/-- Escaped-mode pass 4: plain numeric-plus-target references. -/
def escPass4 (s : Doc) : Doc := subScan escSkips numEscMatch s.length s

/-- Escaped-mode pass 5: still-escaped numeric-plus-target references. -/
def escPass5 (s : Doc) : Doc := subScan escSkips crossEscMatch s.length s

/-- The escaped-mode engine: `modify_links` of zettel_hugo_postmaker.py,
applied to decoded pandoc output. -/
def modifyLinksEscaped (s : Doc) : Doc :=
  escPass5 (escPass4 (escPass3 (escPass2 (escPass1 s))))

/-- Substring test, used to state that an output does or does not contain a
cross-reference directive. -/
def containsSub (p : Doc) : Doc → Bool
  | [] => p.isEmpty
  | c :: rest => p.isPrefixOf (c :: rest) || containsSub p rest

/-- Outcome of opening and decoding a source file, as seen by
`modify_links`: the decoded text, a UTF-8 decode failure, or an operating
system error. -/
inductive ReadError where
  | decodeError : ReadError
  | envError : ReadError
deriving DecidableEq, Repr

/-- The exception, if any, that escapes `modify_links` for a file (both
variants have the identical try/except structure).  A decode failure raises
UnicodeDecodeError, which is a ValueError and is not caught by the
`except EnvironmentError` clause, so it propagates; an environment error is
caught and logged, but the function then executes `return linelist_final`
with that local variable never assigned, raising UnboundLocalError, which
also propagates. -/
inductive PyError where
  | unicodeDecodeError : PyError
  | unboundLocalError : PyError
deriving DecidableEq, Repr

/-- `modify_links` on one file, with the read outcome made explicit: on
success it returns the rewritten text; on any read failure an exception
escapes (see `PyError`). -/
def modifyLinksFile : Except ReadError Doc → Except PyError Doc
  | .ok content => .ok (modifyLinksRaw content)
  | .error .decodeError => .error .unicodeDecodeError
  | .error .envError => .error .unboundLocalError

/-- The `process_files` loop (zettel_link_rewriter.py lines 199-227): each
file in turn is passed to `modify_links`; an exception escaping
`modify_links` propagates out of the loop, so the remaining files are not
processed.  Returns the number of files processed when no exception
occurs. -/
def processFiles : List (Except ReadError Doc) → Except PyError Nat
  | [] => .ok 0
  | f :: fs =>
    match modifyLinksFile f with
    | .ok _ =>
      match processFiles fs with
      | .ok n => .ok (n + 1)
      | .error e => .error e
    | .error e => .error e

/-! ### General lemmas about the scanner -/

theorem subScan_zero (sk : List (Doc → Option Nat)) (rwm : Doc → Option (Nat × Doc))
    (s : Doc) : subScan sk rwm 0 s = s := rfl

theorem subScan_nil (sk : List (Doc → Option Nat)) (rwm : Doc → Option (Nat × Doc))
    (fuel : Nat) : subScan sk rwm (fuel + 1) [] = [] := rfl

theorem subScan_cons (sk : List (Doc → Option Nat)) (rwm : Doc → Option (Nat × Doc))
    (fuel : Nat) (c : Char) (rest : Doc) :
    subScan sk rwm (fuel + 1) (c :: rest) =
      match firstSkip sk (c :: rest) with
      | some n => (c :: rest).take n ++ subScan sk rwm fuel ((c :: rest).drop n)
      | none =>
        match rwm (c :: rest) with
        | some nr => nr.2 ++ subScan sk rwm fuel ((c :: rest).drop nr.1)
        | none => c :: subScan sk rwm fuel rest := rfl

/-- A pass whose rewriting alternative matches at no suffix of the input is
the identity: the protective alternatives copy what they skip verbatim. -/
theorem subScan_eq_self (sk : List (Doc → Option Nat)) (rwm : Doc → Option (Nat × Doc))
    (fuel : Nat) : ∀ s : Doc, (∀ u : Doc, u <:+ s → rwm u = none) →
    subScan sk rwm fuel s = s := by
  induction fuel with
  | zero => intro s _; rfl
  | succ n ih =>
    intro s h
    cases s with
    | nil => rfl
    | cons c rest =>
      rw [subScan_cons]
      cases hF : firstSkip sk (c :: rest) with
      | some k =>
        show (c :: rest).take k ++ subScan sk rwm n ((c :: rest).drop k) = c :: rest
        have hdrop : ((c :: rest).drop k) <:+ (c :: rest) := List.drop_suffix k _
        rw [ih _ (fun u hu => h u (hu.trans hdrop))]
        exact List.take_append_drop k (c :: rest)
      | none =>
        show (match rwm (c :: rest) with
          | some nr => nr.2 ++ subScan sk rwm n ((c :: rest).drop nr.1)
          | none => c :: subScan sk rwm n rest) = c :: rest
        rw [h (c :: rest) (List.suffix_refl _)]
        rw [ih rest (fun u hu => h u (hu.trans (List.suffix_cons c rest)))]

/-- A boolean-prefix of a list is contained in it. -/
theorem subset_of_isPrefixOf {p u : Doc} : p.isPrefixOf u = true → p ⊆ u := by
  induction p generalizing u with
  | nil => intro _ x hx; exact absurd hx (List.not_mem_nil x)
  | cons a p' ih =>
    intro h x hx
    cases u with
    | nil => exact absurd h (by simp [List.isPrefixOf])
    | cons b u' =>
      simp only [List.isPrefixOf, Bool.and_eq_true, beq_iff_eq] at h
      rcases List.mem_cons.mp hx with hxa | hxp
      · exact hxa ▸ h.1 ▸ List.mem_cons_self b u'
      · exact List.mem_cons_of_mem b (ih h.2 hxp)

/-- If some character of the pattern does not occur in the scanned text, the
pattern is a boolean-prefix of no suffix of that text. -/
theorem isPrefixOf_eq_false_of_not_mem {a : Char} {p u s : Doc}
    (ha : a ∈ p) (hu : u <:+ s) (hs : a ∉ s) : p.isPrefixOf u = false := by
  cases hpu : p.isPrefixOf u with
  | false => rfl
  | true => exact absurd (hu.subset (subset_of_isPrefixOf hpu ha)) hs

theorem bareRawMatch_eq_none {u : Doc} (h : ['[', '['].isPrefixOf u = false) :
    bareRawMatch u = none := by
  rw [bareRawMatch, if_neg (by simp [h])]

theorem numRawMatch_eq_none {u : Doc} (h : ['[', '['].isPrefixOf u = false) :
    numRawMatch u = none := by
  rw [numRawMatch, if_neg (by simp [h])]

theorem bareEscMatch_eq_none {u : Doc} (h : ['\\', '[', '\\', '['].isPrefixOf u = false) :
    bareEscMatch u = none := by
  rw [bareEscMatch, if_neg (by simp [h])]

theorem numNormMatch_eq_none {u : Doc} (h : ['[', '\\', '['].isPrefixOf u = false) :
    numNormMatch u = none := by
  rw [numNormMatch, if_neg (by simp [h])]

theorem pctMatch_eq_none {u : Doc} (h : ['%', '2'].isPrefixOf u = false) :
    pctMatch u = none := by
  rw [pctMatch, if_neg (by simp [h])]

theorem numEscMatch_eq_none {u : Doc} (h : ['['].isPrefixOf u = false) :
    numEscMatch u = none := by
  rw [numEscMatch, if_neg (by simp [h])]

theorem crossEscMatch_eq_none {u : Doc} (h : ['\\', '[', '\\', '['].isPrefixOf u = false) :
    crossEscMatch u = none := by
  rw [crossEscMatch, if_neg (by simp [h])]

/-! ### The bare-title pass on a single-reference document -/

theorem lineLen_close (t : Doc) (h : ∀ c ∈ t, c ≠ '\n') :
    lineLen (t ++ [']', ']']) = t.length + 2 := by
  induction t with
  | nil => rfl
  | cons c t' ih =>
    have hc : (c != '\n') = true := by
      simpa using h c (List.mem_cons_self c t')
    unfold lineLen at *
    rw [List.cons_append, List.takeWhile_cons, hc, if_pos rfl, List.length_cons,
      ih (fun x hx => h x (List.mem_cons_of_mem c hx))]
    simp [Nat.add_comm, Nat.add_assoc, Nat.add_left_comm]

theorem greedyFrom_succ (close : Doc → Bool) (r : Doc) (k : Nat) :
    greedyFrom close r (k + 1) =
      if close (r.drop (k + 1)) then some (k + 1) else greedyFrom close r k := rfl

theorem greedyFrom_hit (close : Doc → Bool) (r : Doc) (k : Nat)
    (h : close (r.drop k) = true) : greedyFrom close r k = some k := by
  cases k with
  | zero =>
    rw [show greedyFrom close r 0 = if close r then some 0 else none from rfl,
      if_pos (by simpa using h)]
  | succ m => rw [greedyFrom_succ, if_pos h]

/-- On `t ++ "]]"` with no newline in `t`, the greedy bare-title search
closes at the final bracket pair: the captured title is exactly `t`. -/
theorem greedy_bare (t : Doc) (h : ∀ c ∈ t, c ≠ '\n') :
    greedy bareClose (t ++ [']', ']']) = some t.length := by
  unfold greedy
  rw [lineLen_close t h]
  have e2 : (t ++ [']', ']']).drop ((t.length + 1) + 1) = [] :=
    List.drop_eq_nil_of_le (by simp)
  have e1 : (t ++ [']', ']']).drop (t.length + 1) = [']'] := by
    simp [List.drop_append]
  have e0 : (t ++ [']', ']']).drop t.length = [']', ']'] := List.drop_left t _
  rw [show t.length + 2 = (t.length + 1) + 1 from rfl, greedyFrom_succ, e2,
    if_neg (by decide)]
  rw [greedyFrom_succ, e1, if_neg (by decide)]
  exact greedyFrom_hit _ _ _ (by rw [e0]; decide)

theorem bareRawMatch_full (t : Doc) (h : ∀ c ∈ t, c ≠ '\n') :
    bareRawMatch ('[' :: ('[' :: (t ++ [']', ']']))) =
      some (t.length + 4, bareTemplate t) := by
  rw [bareRawMatch, if_pos (by simp [List.isPrefixOf])]
  have hd : ('[' :: ('[' :: (t ++ [']', ']']))).drop 2 = t ++ [']', ']'] := rfl
  rw [hd, greedy_bare t h]
  show some (t.length + 4, bareTemplate ((t ++ [']', ']']).take t.length)) = _
  rw [List.take_left]

theorem firstSkip_raw_open (rest : Doc) :
    firstSkip rawSkips ('[' :: rest) = none := by
  have hb : ('\x60' == '[') = false := by decide
  have hs : (' ' == '[') = false := by decide
  have ht : ('\t' == '[') = false := by decide
  simp [firstSkip, rawSkips, fencedSkip, inlineSkip, indentSkipTab,
    List.isPrefixOf, hb, hs, ht]

theorem rawPass1_single (t : Doc) (h : ∀ c ∈ t, c ≠ '\n') :
    rawPass1 ('[' :: ('[' :: (t ++ [']', ']']))) = bareTemplate t := by
  unfold rawPass1
  have hlen : ('[' :: ('[' :: (t ++ [']', ']']))).length = t.length + 4 := by simp
  rw [hlen, show t.length + 4 = (t.length + 3) + 1 from rfl, subScan_cons,
    firstSkip_raw_open, bareRawMatch_full t h]
  show bareTemplate t ++
      subScan rawSkips bareRawMatch (t.length + 3)
        (('[' :: ('[' :: (t ++ [']', ']']))).drop (t.length + 4)) = bareTemplate t
  have hdrop : ('[' :: ('[' :: (t ++ [']', ']']))).drop (t.length + 4) = [] :=
    List.drop_eq_nil_of_le (by simp)
  rw [hdrop, show t.length + 3 = (t.length + 2) + 1 from rfl, subScan_nil,
    List.append_nil]

theorem single_isPrefixOf_false {a : Char} {R : Doc} (h : a ∉ R) :
    [a].isPrefixOf R = false := by
  cases R with
  | nil => rfl
  | cons r R' =>
    have hne : (a == r) = false :=
      beq_eq_false_iff_ne.mpr (fun he => h (he ▸ List.mem_cons_self r R'))
    simp [List.isPrefixOf, hne]

theorem double_isPrefixOf_false {R : Doc} (h : '[' ∉ R) :
    ['[', '['].isPrefixOf ('[' :: R) = false := by
  simp [List.isPrefixOf, single_isPrefixOf_false h]

/-- The bare-title replacement for a bracket-free title contains no double
open bracket, so the second raw-mode pass matches nowhere in it. -/
theorem numRawMatch_none_on_template (t : Doc) (h2 : '[' ∉ t) :
    ∀ u : Doc, u <:+ bareTemplate t → numRawMatch u = none := by
  intro u hu
  have hR : '[' ∉ (t ++ (tmplMid ++ (t ++ tmplEnd))) := by
    intro hmem
    rcases List.mem_append.mp hmem with hm | hm
    · exact h2 hm
    rcases List.mem_append.mp hm with hm' | hm'
    · exact absurd hm' (by decide)
    rcases List.mem_append.mp hm' with hm'' | hm''
    · exact h2 hm''
    · exact absurd hm'' (by decide)
  rcases List.suffix_cons_iff.mp hu with hEq | hu'
  · rw [hEq]
    exact numRawMatch_eq_none (double_isPrefixOf_false hR)
  · exact numRawMatch_eq_none (isPrefixOf_eq_false_of_not_mem (by decide) hu' hR)


/-! ### A code span standing as the whole document is copied verbatim -/

theorem subScan_nil_any (sk : List (Doc → Option Nat)) (rwm : Doc → Option (Nat × Doc))
    (fuel : Nat) : subScan sk rwm fuel [] = [] := by
  cases fuel with
  | zero => rfl
  | succ n => rfl

/-- In a body without backticks, the first backtick after it is exactly the
closing delimiter: the lazy inline-span body stops there. -/
theorem findTick_no_tick (b : Doc) (h : '\x60' ∉ b) :
    findTick (b ++ ['\x60']) = some b.length := by
  induction b with
  | nil => decide
  | cons x b' ih =>
    have hx : (x == '\x60') = false :=
      beq_eq_false_iff_ne.mpr (fun he => h (he ▸ List.mem_cons_self x b'))
    simp [findTick, hx, ih (fun hm => h (List.mem_cons_of_mem x hm))]

/-- In a body without backticks, the first triple backtick after it is
exactly the closing delimiter: the lazy fenced-span body stops there. -/
theorem findTriple_no_tick (b : Doc) (h : '\x60' ∉ b) :
    findTriple (b ++ ['\x60', '\x60', '\x60']) = some b.length := by
  induction b with
  | nil => decide
  | cons x b' ih =>
    have hx : ('\x60' == x) = false :=
      beq_eq_false_iff_ne.mpr (fun he => h (by rw [he]; exact List.mem_cons_self x b'))
    simp [findTriple, List.isPrefixOf, hx,
      ih (fun hm => h (List.mem_cons_of_mem x hm))]

theorem fencedSkip_inline_none (b : Doc) (h : '\x60' ∉ b) :
    fencedSkip ('\x60' :: (b ++ ['\x60'])) = none := by
  cases b with
  | nil => decide
  | cons x b' =>
    have hx : ('\x60' == x) = false :=
      beq_eq_false_iff_ne.mpr
        (fun he => h (by rw [he]; exact List.mem_cons_self x b'))
    rw [fencedSkip, if_neg (by simp [List.isPrefixOf, List.cons_append, hx])]

theorem inlineSkip_inline (b : Doc) (h : '\x60' ∉ b) :
    inlineSkip ('\x60' :: (b ++ ['\x60'])) = some (b.length + 2) := by
  rw [inlineSkip, if_pos (by simp [List.isPrefixOf])]
  rw [show ('\x60' :: (b ++ ['\x60'])).drop 1 = b ++ ['\x60'] from rfl,
    findTick_no_tick b h]
  simp [Nat.add_comm]

theorem fencedSkip_fenced (b : Doc) (h : '\x60' ∉ b) :
    fencedSkip ('\x60' :: ('\x60' :: ('\x60' :: (b ++ ['\x60', '\x60', '\x60'])))) =
      some (b.length + 6) := by
  rw [fencedSkip, if_pos (by simp [List.isPrefixOf])]
  rw [show ('\x60' :: ('\x60' :: ('\x60' :: (b ++ ['\x60', '\x60', '\x60'])))).drop 3 =
      b ++ ['\x60', '\x60', '\x60'] from rfl, findTriple_no_tick b h]
  simp [Nat.add_comm]

/-- An inline code span standing as the whole document is skipped wholesale
by any pass whose protective alternatives start with the fenced and inline
ones (all seven passes do), whatever its backtick-free content is. -/
theorem subScan_inline_whole (tail : List (Doc → Option Nat))
    (rwm : Doc → Option (Nat × Doc)) (b : Doc) (h : '\x60' ∉ b) (fuel : Nat) :
    subScan (fencedSkip :: (inlineSkip :: tail)) rwm (fuel + 1)
      ('\x60' :: (b ++ ['\x60'])) = '\x60' :: (b ++ ['\x60']) := by
  rw [subScan_cons]
  have hfs : firstSkip (fencedSkip :: (inlineSkip :: tail))
      ('\x60' :: (b ++ ['\x60'])) = some (b.length + 2) := by
    simp [firstSkip, fencedSkip_inline_none b h, inlineSkip_inline b h]
  rw [hfs]
  show ('\x60' :: (b ++ ['\x60'])).take (b.length + 2) ++
      subScan (fencedSkip :: (inlineSkip :: tail)) rwm fuel
        (('\x60' :: (b ++ ['\x60'])).drop (b.length + 2)) = '\x60' :: (b ++ ['\x60'])
  have hlen : ('\x60' :: (b ++ ['\x60'])).length = b.length + 2 := by simp
  rw [show ('\x60' :: (b ++ ['\x60'])).take (b.length + 2) = '\x60' :: (b ++ ['\x60'])
      from by rw [← hlen, List.take_length],
    List.drop_eq_nil_of_le (le_of_eq hlen), subScan_nil_any, List.append_nil]

/-- A fenced code block standing as the whole document is skipped wholesale
by any pass (the fenced alternative is always tried first), whatever its
backtick-free content is. -/
theorem subScan_fenced_whole (tail : List (Doc → Option Nat))
    (rwm : Doc → Option (Nat × Doc)) (b : Doc) (h : '\x60' ∉ b) (fuel : Nat) :
    subScan (fencedSkip :: tail) rwm (fuel + 1)
        ('\x60' :: ('\x60' :: ('\x60' :: (b ++ ['\x60', '\x60', '\x60'])))) =
      '\x60' :: ('\x60' :: ('\x60' :: (b ++ ['\x60', '\x60', '\x60']))) := by
  rw [subScan_cons]
  have hfs : firstSkip (fencedSkip :: tail)
      ('\x60' :: ('\x60' :: ('\x60' :: (b ++ ['\x60', '\x60', '\x60'])))) =
      some (b.length + 6) := by
    simp [firstSkip, fencedSkip_fenced b h]
  rw [hfs]
  show ('\x60' :: ('\x60' :: ('\x60' :: (b ++ ['\x60', '\x60', '\x60'])))).take
        (b.length + 6) ++
      subScan (fencedSkip :: tail) rwm fuel
        (('\x60' :: ('\x60' :: ('\x60' :: (b ++ ['\x60', '\x60', '\x60'])))).drop
          (b.length + 6)) =
      '\x60' :: ('\x60' :: ('\x60' :: (b ++ ['\x60', '\x60', '\x60'])))
  have hlen : ('\x60' :: ('\x60' :: ('\x60' :: (b ++ ['\x60', '\x60', '\x60'])))).length =
      b.length + 6 := by simp
  rw [show ('\x60' :: ('\x60' :: ('\x60' :: (b ++ ['\x60', '\x60', '\x60'])))).take
        (b.length + 6) =
      '\x60' :: ('\x60' :: ('\x60' :: (b ++ ['\x60', '\x60', '\x60'])))
      from by rw [← hlen, List.take_length],
    List.drop_eq_nil_of_le (le_of_eq hlen), subScan_nil_any, List.append_nil]

theorem modifyLinksRaw_inline_span (b : Doc) (h : '\x60' ∉ b) :
    modifyLinksRaw ('\x60' :: (b ++ ['\x60'])) = '\x60' :: (b ++ ['\x60']) := by
  have hlen : ('\x60' :: (b ++ ['\x60'])).length = (b.length + 1) + 1 := by simp
  unfold modifyLinksRaw rawPass1 rawPass2 rawSkips rawSkips2
  rw [hlen, subScan_inline_whole [indentSkipTab] bareRawMatch b h (b.length + 1)]
  rw [hlen, subScan_inline_whole [indentSkipSp] numRawMatch b h (b.length + 1)]

theorem modifyLinksEscaped_inline_span (b : Doc) (h : '\x60' ∉ b) :
    modifyLinksEscaped ('\x60' :: (b ++ ['\x60'])) = '\x60' :: (b ++ ['\x60']) := by
  have hlen : ('\x60' :: (b ++ ['\x60'])).length = (b.length + 1) + 1 := by simp
  unfold modifyLinksEscaped escPass1 escPass2 escPass3 escPass4 escPass5 escSkips
  rw [hlen, subScan_inline_whole [] bareEscMatch b h (b.length + 1)]
  rw [hlen, subScan_inline_whole [] numNormMatch b h (b.length + 1)]
  rw [hlen, subScan_inline_whole [] pctMatch b h (b.length + 1)]
  rw [hlen, subScan_inline_whole [] numEscMatch b h (b.length + 1)]
  rw [hlen, subScan_inline_whole [] crossEscMatch b h (b.length + 1)]

theorem modifyLinksRaw_fenced_span (b : Doc) (h : '\x60' ∉ b) :
    modifyLinksRaw ('\x60' :: ('\x60' :: ('\x60' :: (b ++ ['\x60', '\x60', '\x60'])))) =
      '\x60' :: ('\x60' :: ('\x60' :: (b ++ ['\x60', '\x60', '\x60']))) := by
  have hlen : ('\x60' :: ('\x60' :: ('\x60' :: (b ++ ['\x60', '\x60', '\x60'])))).length =
      (b.length + 5) + 1 := by simp
  unfold modifyLinksRaw rawPass1 rawPass2 rawSkips rawSkips2
  rw [hlen, subScan_fenced_whole [inlineSkip, indentSkipTab] bareRawMatch b h
    (b.length + 5)]
  rw [hlen, subScan_fenced_whole [inlineSkip, indentSkipSp] numRawMatch b h
    (b.length + 5)]

theorem modifyLinksEscaped_fenced_span (b : Doc) (h : '\x60' ∉ b) :
    modifyLinksEscaped
        ('\x60' :: ('\x60' :: ('\x60' :: (b ++ ['\x60', '\x60', '\x60'])))) =
      '\x60' :: ('\x60' :: ('\x60' :: (b ++ ['\x60', '\x60', '\x60']))) := by
  have hlen : ('\x60' :: ('\x60' :: ('\x60' :: (b ++ ['\x60', '\x60', '\x60'])))).length =
      (b.length + 5) + 1 := by simp
  unfold modifyLinksEscaped escPass1 escPass2 escPass3 escPass4 escPass5 escSkips
  rw [hlen, subScan_fenced_whole [inlineSkip] bareEscMatch b h (b.length + 5)]
  rw [hlen, subScan_fenced_whole [inlineSkip] numNormMatch b h (b.length + 5)]
  rw [hlen, subScan_fenced_whole [inlineSkip] pctMatch b h (b.length + 5)]
  rw [hlen, subScan_fenced_whole [inlineSkip] numEscMatch b h (b.length + 5)]
  rw [hlen, subScan_fenced_whole [inlineSkip] crossEscMatch b h (b.length + 5)]

/-! ### Claim theorems -/

/-- Claim C1, counterexample: in the raw-mode input below the backtick after
`x` and the backtick before `z` delimit an inline code span, and the would-be
wiki-link pattern beginning at the first character lies partially inside that
span; yet the pattern does not appear verbatim in the output, and a
cross-reference directive is emitted for it.  The scan reaches the wiki-link
opening before the span's opening backtick, and the greedy bare-title match
consumes the span's opening delimiter. -/
theorem c1_partial_overlap_rewritten :
    modifyLinksRaw "[[x`y]]`z".data ≠ "[[x`y]]`z".data ∧
    containsSub "relref".data (modifyLinksRaw "[[x`y]]`z".data) = true := by
  constructor
  · decide
  · decide

/-- Claim C1, amended: a code span that the scan reaches intact is skipped
wholesale, so every would-be wiki-link pattern inside it appears verbatim
and no cross-reference is emitted for it.  Proved in the strongest form the
code supports: a document consisting of one inline code span or one fenced
code block, with arbitrary backtick-free content - whatever bracket patterns
that content holds - is returned unchanged by both engines, in every pass.
The guarantee cannot be extended to spans embedded in larger documents: a
rewrite match starting before the span can consume its opening delimiter
and rewrite material inside it (see the counterexample). -/
theorem c1_code_span_document_verbatim (b : Doc) (h : '\x60' ∉ b) :
    modifyLinksRaw ('\x60' :: (b ++ ['\x60'])) = '\x60' :: (b ++ ['\x60']) ∧
    modifyLinksEscaped ('\x60' :: (b ++ ['\x60'])) = '\x60' :: (b ++ ['\x60']) ∧
    modifyLinksRaw ('\x60' :: ('\x60' :: ('\x60' :: (b ++ ['\x60', '\x60', '\x60'])))) =
      '\x60' :: ('\x60' :: ('\x60' :: (b ++ ['\x60', '\x60', '\x60']))) ∧
    modifyLinksEscaped
        ('\x60' :: ('\x60' :: ('\x60' :: (b ++ ['\x60', '\x60', '\x60'])))) =
      '\x60' :: ('\x60' :: ('\x60' :: (b ++ ['\x60', '\x60', '\x60']))) :=
  ⟨modifyLinksRaw_inline_span b h, modifyLinksEscaped_inline_span b h,
    modifyLinksRaw_fenced_span b h, modifyLinksEscaped_fenced_span b h⟩

/-- Claim C1, witness: the spec's own protected example content `[[Foo]]`,
as a whole inline span and a whole fenced block, in both modes. -/
theorem c1_code_span_document_verbatim_witness :
    ('\x60' ∉ "[[Foo]]".data) ∧
    (modifyLinksRaw ('\x60' :: ("[[Foo]]".data ++ ['\x60'])) =
        '\x60' :: ("[[Foo]]".data ++ ['\x60']) ∧
      modifyLinksEscaped ('\x60' :: ("[[Foo]]".data ++ ['\x60'])) =
        '\x60' :: ("[[Foo]]".data ++ ['\x60']) ∧
      modifyLinksRaw
          ('\x60' :: ('\x60' :: ('\x60' :: ("[[Foo]]".data ++ ['\x60', '\x60', '\x60'])))) =
        '\x60' :: ('\x60' :: ('\x60' :: ("[[Foo]]".data ++ ['\x60', '\x60', '\x60']))) ∧
      modifyLinksEscaped
          ('\x60' :: ('\x60' :: ('\x60' :: ("[[Foo]]".data ++ ['\x60', '\x60', '\x60'])))) =
        '\x60' :: ('\x60' :: ('\x60' :: ("[[Foo]]".data ++ ['\x60', '\x60', '\x60'])))) :=
  ⟨by decide, c1_code_span_document_verbatim "[[Foo]]".data (by decide)⟩

/-- Claim C2: in raw mode, a document consisting of a bare title reference
whose title contains no newline and no open bracket is replaced by the
cross-reference template: visible text the title, target the title with
extension `.md`. -/
theorem c2_bare_title_rewrite (t : Doc) (h1 : '\n' ∉ t) (h2 : '[' ∉ t) :
    modifyLinksRaw ('[' :: ('[' :: (t ++ [']', ']']))) = bareTemplate t := by
  unfold modifyLinksRaw
  rw [rawPass1_single t (fun c hc he => h1 (he ▸ hc))]
  unfold rawPass2
  exact subScan_eq_self _ _ _ _ (numRawMatch_none_on_template t h2)

/-- Claim C2, witness: the spec's own example, `[[My Note]]` becomes
`[My Note]({{< relref "My Note.md" >}})`. -/
theorem c2_bare_title_rewrite_witness :
    ('\n' ∉ "My Note".data ∧ '[' ∉ "My Note".data) ∧
    modifyLinksRaw ('[' :: ('[' :: ("My Note".data ++ [']', ']']))) =
      bareTemplate "My Note".data :=
  ⟨⟨by decide, by decide⟩, c2_bare_title_rewrite "My Note".data (by decide) (by decide)⟩

/-- Claim C3: `[[42]] (Some Target)` in raw mode is left untouched by the
bare-title pass (the negative lookahead excludes it) and is rewritten by the
numeric-plus-target pass into the space-joined cross-reference. -/
theorem c3_numeric_target_not_bare :
    rawPass1 "[[42]] (Some Target)".data = "[[42]] (Some Target)".data ∧
    modifyLinksRaw "[[42]] (Some Target)".data =
      "[42 Some Target](\x7b\x7b< relref \"42 Some Target.md\" >\x7d\x7d)".data := by
  refine ⟨by decide, by decide⟩

/-- Claim C4: the escaped-mode pipeline applies its passes in the fixed
order bare-title, numeric-bracket normalization, percent-space decode,
numeric-plus-target, each pass's whole-document output feeding the next:
`[\[42\]]` is first normalized to `[42]`, the `%20` in `[42](Some%20Target)`
is then decoded to a space, and the numeric-plus-target pass then emits the
cross-reference. -/
theorem c4_escaped_pipeline_order :
    escPass1 "[\\[42\\]]\n[42](Some%20Target)".data =
      "[\\[42\\]]\n[42](Some%20Target)".data ∧
    escPass2 (escPass1 "[\\[42\\]]\n[42](Some%20Target)".data) =
      "[42]\n[42](Some%20Target)".data ∧
    escPass3 (escPass2 (escPass1 "[\\[42\\]]\n[42](Some%20Target)".data)) =
      "[42]\n[42](Some Target)".data ∧
    modifyLinksEscaped "[\\[42\\]]\n[42](Some%20Target)".data =
      "[42]\n[42 Some Target](\x7b\x7b< relref \"42 Some Target.md\" >\x7d\x7d)".data := by
  refine ⟨by decide, by decide, by decide, by decide⟩

/-- Claim C5, counterexample: a raw-mode document whose opening fence is
never closed does not protect the following text - the bracket pattern after
it is rewritten and a cross-reference directive is emitted. -/
theorem c5_unterminated_fence_not_protected :
    modifyLinksRaw "```\n[[A]]".data ≠ "```\n[[A]]".data ∧
    containsSub "relref".data (modifyLinksRaw "```\n[[A]]".data) = true := by
  refine ⟨by decide, by decide⟩

/-- Claim C5, amended: the fenced-code alternative requires a matching
closing delimiter; with an unterminated opening fence it fails, so bracket
patterns after the fence are rewritten normally, in both modes. -/
theorem c5_unterminated_fence_rewrites :
    modifyLinksRaw "```\n[[A]]".data =
      "```\n[A](\x7b\x7b< relref \"A.md\" >\x7d\x7d)".data ∧
    modifyLinksEscaped "```\n\\[\\[A\\]\\]".data =
      "```\n[A](\x7b\x7b< relref \"A.md\" >\x7d\x7d)".data := by
  refine ⟨by decide, by decide⟩

/-- Claim C6, counterexample: rewrite is not idempotent on its own output.
For `[[[[A]]]]` the first raw-mode rewrite captures the greedy title
`[[A]]`, whose brackets reappear inside the emitted directive, and the
second application rewrites the output again. -/
theorem c6_not_idempotent :
    modifyLinksRaw (modifyLinksRaw "[[[[A]]]]".data) ≠
      modifyLinksRaw "[[[[A]]]]".data := by
  decide

/-- Claim C6, amended: a second application is a no-op on outputs whose
rewritten directives contain no residual bracket patterns, here one example
per variant: raw bare-title, raw numeric-plus-target, and the escaped
pipeline. -/
theorem c6_idempotent_on_examples :
    modifyLinksRaw (modifyLinksRaw "[[My Note]]".data) =
      modifyLinksRaw "[[My Note]]".data ∧
    modifyLinksRaw (modifyLinksRaw "[[42]] (Some Target)".data) =
      modifyLinksRaw "[[42]] (Some Target)".data ∧
    modifyLinksEscaped (modifyLinksEscaped "[\\[42\\]]\n[42](Some%20Target)".data) =
      modifyLinksEscaped "[\\[42\\]]\n[42](Some%20Target)".data := by
  refine ⟨by decide, by decide, by decide⟩

/-- Claim C7, counterexample: in escaped mode the percent-space pass changes
text that contains no bracket pattern at all: `a%20b)` becomes `a b)`. -/
theorem c7_percent_decode_changes_text :
    modifyLinksEscaped "a%20b)".data = "a b)".data ∧
    modifyLinksEscaped "a%20b)".data ≠ "a%20b)".data := by
  refine ⟨by decide, by decide⟩

/-- Claim C7, amended: a text containing no open bracket is returned
unchanged by the raw-mode engine; if it also contains no percent character
it is returned unchanged by the escaped-mode engine as well. -/
theorem c7_no_bracket_passthrough (s : Doc) (h : '[' ∉ s) :
    modifyLinksRaw s = s ∧ ('%' ∉ s → modifyLinksEscaped s = s) := by
  have p1 : rawPass1 s = s := subScan_eq_self _ _ _ _ (fun u hu =>
    bareRawMatch_eq_none (isPrefixOf_eq_false_of_not_mem (by decide) hu h))
  have p2 : rawPass2 s = s := subScan_eq_self _ _ _ _ (fun u hu =>
    numRawMatch_eq_none (isPrefixOf_eq_false_of_not_mem (by decide) hu h))
  refine ⟨by unfold modifyLinksRaw; rw [p1, p2], fun hp => ?_⟩
  have e1 : escPass1 s = s := subScan_eq_self _ _ _ _ (fun u hu =>
    bareEscMatch_eq_none
      (isPrefixOf_eq_false_of_not_mem (a := '[') (by decide) hu h))
  have e2 : escPass2 s = s := subScan_eq_self _ _ _ _ (fun u hu =>
    numNormMatch_eq_none
      (isPrefixOf_eq_false_of_not_mem (a := '[') (by decide) hu h))
  have e3 : escPass3 s = s := subScan_eq_self _ _ _ _ (fun u hu =>
    pctMatch_eq_none
      (isPrefixOf_eq_false_of_not_mem (a := '%') (by decide) hu hp))
  have e4 : escPass4 s = s := subScan_eq_self _ _ _ _ (fun u hu =>
    numEscMatch_eq_none
      (isPrefixOf_eq_false_of_not_mem (a := '[') (by decide) hu h))
  have e5 : escPass5 s = s := subScan_eq_self _ _ _ _ (fun u hu =>
    crossEscMatch_eq_none
      (isPrefixOf_eq_false_of_not_mem (a := '[') (by decide) hu h))
  unfold modifyLinksEscaped
  rw [e1, e2, e3, e4, e5]

/-- Claim C7, witness: a concrete bracket-free, percent-free text passes
through both engines unchanged. -/
theorem c7_no_bracket_passthrough_witness :
    ('[' ∉ "plain text with no links.\n".data) ∧
    (modifyLinksRaw "plain text with no links.\n".data =
        "plain text with no links.\n".data ∧
      ('%' ∉ "plain text with no links.\n".data →
        modifyLinksEscaped "plain text with no links.\n".data =
          "plain text with no links.\n".data)) :=
  ⟨by decide, c7_no_bracket_passthrough "plain text with no links.\n".data (by decide)⟩

/-- Claim C8: a file whose bytes cannot be decoded as UTF-8 raises an
exception that escapes `modify_links` (UnicodeDecodeError is a ValueError,
not an EnvironmentError, so the except clause does not catch it) and aborts
the whole `process_files` loop before any later file is processed; a caught
environment error likewise aborts, via the unbound `linelist_final` at the
return statement.  Only an error-free batch is processed to completion. -/
theorem c8_decode_error_aborts_batch :
    processFiles [Except.error ReadError.decodeError,
        Except.ok "[[My Note]]".data] =
      Except.error PyError.unicodeDecodeError ∧
    processFiles [Except.error ReadError.envError,
        Except.ok "[[My Note]]".data] =
      Except.error PyError.unboundLocalError ∧
    processFiles [Except.ok "[[My Note]]".data] = Except.ok 1 := by
  refine ⟨rfl, rfl, rfl⟩

/-- Claim C9, counterexample: in raw mode a bare wiki-link on a tab-indented
line is NOT rewritten - the first pass's protective alternative matches the
tab and skips the line, so the output equals the input rather than the
bare-title rewrite. -/
theorem c9_tab_line_bare_title_not_rewritten :
    modifyLinksRaw "\t[[A]]".data = "\t[[A]]".data ∧
    modifyLinksRaw "\t[[A]]".data ≠
      "\t[A](\x7b\x7b< relref \"A.md\" >\x7d\x7d)".data := by
  refine ⟨by decide, by decide⟩

/-- Claim C9, amended: tabs are excluded from indentation protection only in
the second raw-mode pass: a numeric-plus-target reference on a tab-indented
line is rewritten, a bare-title reference on a tab-indented line is
protected, and a four-space-indented line is protected in both passes. -/
theorem c9_tab_protection_per_pass :
    modifyLinksRaw "\t[[A]]".data = "\t[[A]]".data ∧
    modifyLinksRaw "\t[[42]] (T)".data =
      ('\t' :: "[42 T](\x7b\x7b< relref \"42 T.md\" >\x7d\x7d)".data) ∧
    modifyLinksRaw "    [[42]] (T)".data = "    [[42]] (T)".data := by
  refine ⟨by decide, by decide, by decide⟩

/-- Claim C10, counterexample: a line with two bare title references does
not yield two separate cross-references; the greedy title capture closes at
the last valid closing delimiter, producing one directive titled
`A]] [[B`. -/
theorem c10_two_bare_titles_single_greedy_match :
    modifyLinksRaw "[[A]] [[B]]".data ≠
      ("[A](\x7b\x7b< relref \"A.md\" >\x7d\x7d) " ++
        "[B](\x7b\x7b< relref \"B.md\" >\x7d\x7d)").data ∧
    modifyLinksRaw "[[A]] [[B]]".data =
      "[A]] [[B](\x7b\x7b< relref \"A]] [[B.md\" >\x7d\x7d)".data := by
  refine ⟨by decide, by decide⟩

/-- Claim C10, amended: the bare-title dot-star is greedy, so the capture
extends to the farthest valid closing delimiter on the line: `[[A]] text
[[B]]` yields a single cross-reference whose title is `A]] text [[B`. -/
theorem c10_greedy_to_last_close :
    modifyLinksRaw "[[A]] text [[B]]".data =
      "[A]] text [[B](\x7b\x7b< relref \"A]] text [[B.md\" >\x7d\x7d)".data := by
  decide
